import Mathlib

/-!
Verification development for the Matrix URI decomposer (`MatrixURL` in
`src/index.ts`).  The decomposer receives the components produced by the
host environment's generic URL primitive (`new URL(uri)`), checks the
scheme, extracts authority/fragment, tokenizes the query string and
validates the entity path.  We embed the decomposer as a pure function
from those URL components to `Except ParseError MatrixURL`, mirroring the
TypeScript constructor and `_extractUrlData` line by line.  JavaScript
string operations (`split`, `substring`, `indexOf`, `startsWith`) are
modelled over `List Char` with their JavaScript semantics.
-/

namespace MatrixUri

/-- Components of a URI as reported by the host environment's generic URL
primitive (`new URL(uri)`).  This is the boundary at which the repository's
own code starts: the constructor reads `url.protocol`, `url.host`,
`url.pathname`, `url.search` and `url.hash`. -/
structure UrlParts where
  protocol : String
  host : String
  pathname : String
  search : String
  hash : String
deriving DecidableEq

/-- The `EntityType` enum from the source. -/
inductive EntityType where
  | UserId
  | RoomAlias
  | RoomId
deriving DecidableEq

/-- The distinct `TypeError` reasons thrown by the source, one per throw
site: "Not a matrix: scheme link" (`InvalidScheme`), "Invalid number of
path segments" (`InvalidSegmentCount`), "Invalid entity descriptor"
(`InvalidEntityDescriptor`), "Empty mxid, not valid" (`EmptyIdentifier`),
"Can only specify events on rooms or room aliases"
(`EventNotAllowedForKind`), "Invalid event URL" (`InvalidEventUrl`). -/
inductive ParseError where
  | InvalidScheme
  | InvalidSegmentCount
  | InvalidEntityDescriptor
  | EmptyIdentifier
  | EventNotAllowedForKind
  | InvalidEventUrl
deriving DecidableEq

/-- The output record of the decomposer (the fields of the `MatrixURL`
class).  JavaScript `null`/`undefined` are both modelled as `none`; a
query value is `Option String` because destructuring `[key, value]` of a
single-element split yields `undefined` for `value`. -/
structure MatrixURL where
  id : String
  kind : EntityType
  eventId : Option String
  fragment : Option String
  authority : Option String
  via : List (Option String)
  action : Option String
  unknownParams : List (String × Option String)
deriving DecidableEq

/-! ## JavaScript string primitives, over `List Char` -/

/-- Right-fold worker for JavaScript `String.prototype.split` with a
one-character separator: returns the current (leftmost) segment and the
list of the remaining segments. -/
def splitAux (c : Char) : List Char → List Char × List (List Char)
  | [] => ([], [])
  | x :: xs =>
    let r := splitAux c xs
    if x = c then ([], r.1 :: r.2) else (x :: r.1, r.2)

/-- JavaScript `split` with a one-character separator, on char lists.
`splitOnChar c l` is never empty, and `[[]]` on the empty string, exactly
as in JavaScript (`"".split(sep)` is `[""]`). -/
def splitOnChar (c : Char) (l : List Char) : List (List Char) :=
  (splitAux c l).1 :: (splitAux c l).2

/-- JavaScript `s.split(c)` for a one-character separator `c`. -/
def jsSplit (s : String) (c : Char) : List String :=
  (splitOnChar c s.data).map String.mk

/-- JavaScript `s.substring(n)` for a non-negative argument. -/
def jsDrop (s : String) (n : Nat) : String :=
  String.mk (s.data.drop n)

/-- JavaScript `s.substring(a, b)`: both arguments are clamped to
`[0, length]` and swapped if out of order (relevant because the source
feeds `indexOf`'s possible `-1` straight into `substring`). -/
def jsSubstring (s : String) (a b : Int) : String :=
  let n : Int := (s.data.length : Int)
  let a2 := min (max a 0) n
  let b2 := min (max b 0) n
  String.mk ((s.data.take (max a2 b2).toNat).drop (min a2 b2).toNat)

/-- JavaScript `s.indexOf(c, start)` for a one-character needle: the first
index `≥ start` holding `c`, or `-1`. -/
def jsIndexOfFrom (s : String) (c : Char) (start : Nat) : Int :=
  match (s.data.drop start).findIdx? (fun x => x = c) with
  | some i => ((start + i : Nat) : Int)
  | none => -1

/-- JavaScript `s.startsWith("//")`. -/
def jsStartsWithDoubleSlash (s : String) : Bool :=
  match s.data with
  | '/' :: '/' :: _ => true
  | _ => false

/-! ## The decomposer, translated from `MatrixURL`'s constructor and
`_extractUrlData` -/

/-- Constructor line `this.fragment = url.hash.substring(1) || null`:
the hash with its leading `#` removed, with the empty string (falsy)
normalized to `none`. -/
def fragmentOf (u : UrlParts) : Option String :=
  let f := jsDrop u.hash 1
  if f = "" then none else some f

/-- Constructor lines 41-51: authority extraction together with the path
it leaves behind.  Branch one: a truthy `url.host` is used directly and
the single leading separator of `url.pathname` is stripped.  Branch two:
a pathname starting with `//` has the text up to the next `/` taken as
authority, and the path continues at `url.pathname.substring(authority.length+4)`.
Otherwise the pathname is used as-is with no authority. -/
def authorityAndPath (u : UrlParts) : Option String × String :=
  if u.host ≠ "" then (some u.host, jsDrop u.pathname 1)
  else if jsStartsWithDoubleSlash u.pathname then
    let auth := jsSubstring u.pathname 2 (jsIndexOfFrom u.pathname '/' 2)
    (some auth, jsDrop u.pathname (auth.length + 4))
  else (none, u.pathname)

/-- The `authority` field produced by the constructor. -/
def authorityOf (u : UrlParts) : Option String :=
  (authorityAndPath u).1

/-- The path string handed by the constructor to `_extractUrlData`. -/
def strippedPath (u : UrlParts) : String :=
  (authorityAndPath u).2

/-- Constructor lines 52-57: a truthy `url.search` is split on `&` after
dropping the leading `?`, and every token is split on `=` (JavaScript
`split` splits at every occurrence). -/
def tokenizeQuery (search : String) : List (List String) :=
  if search ≠ "" then (jsSplit (jsDrop search 1) '&').map (fun s => jsSplit s '=')
  else []

/-- The `key` taken by the loop's destructuring `const [key, value]` of a
split token: element 0, which always exists since `split` never returns
an empty array. -/
def keyOf (tok : List String) : String := tok.headD ""

/-- The `value` taken by the destructuring: element 1, `undefined`
(here `none`) when the token contained no separator. -/
def valOf (tok : List String) : Option String := tok.get? 1

/-- State of the query-classification loop: the `via`, `action` and
`unknownParams` fields being built. -/
structure QState where
  via : List (Option String)
  action : Option String
  unknown : List (String × Option String)
deriving DecidableEq

/-- One iteration of the loop over `queryParams` (lines 95-103):
`via` values are appended, `action` is overwritten, and every other pair
is appended to `unknownParams`. -/
def classifyStep (st : QState) (tok : List String) : QState :=
  if keyOf tok = "via" then { st with via := st.via ++ [valOf tok] }
  else if keyOf tok = "action" then { st with action := valOf tok }
  else { st with unknown := st.unknown ++ [(keyOf tok, valOf tok)] }

/-- The path segments `const paths = path.split("/")`. -/
def pathSegments (path : String) : List String := jsSplit path '/'

/-- The tag switch of lines 69-74: `u`, `r`, `roomid` map to the three
entity kinds; anything else is the `default` (throwing) case. -/
def kindOfTag : String → Option EntityType
  | "u" => some .UserId
  | "r" => some .RoomAlias
  | "roomid" => some .RoomId
  | _ => none

/-- Lines 66-91 of `_extractUrlData`, operating on the already-split
`paths` array: segment-count check, kind switch, identifier check and the
event block, producing the `(kind, id, eventId)` triple or the
`TypeError` thrown first. -/
def validateSegments (paths : List String) : Except ParseError (EntityType × String × Option String) :=
  if paths.length ≠ 2 ∧ paths.length ≠ 4 then
    .error .InvalidSegmentCount
  else
    match kindOfTag (paths.getD 0 "") with
    | none => .error .InvalidEntityDescriptor
    | some kind =>
      if paths.getD 1 "" = "" then .error .EmptyIdentifier
      else
        if paths.length = 4 then
          if paths.getD 2 "" = "e" ∨ paths.getD 2 "" = "event" then
            if kind ≠ EntityType.RoomId ∧ kind ≠ EntityType.RoomAlias then
              .error .EventNotAllowedForKind
            else if paths.getD 3 "" = "" then
              .error .InvalidEventUrl
            else
              .ok (kind, paths.getD 1 "", some (paths.getD 3 ""))
          else .error .InvalidEntityDescriptor
        else .ok (kind, paths.getD 1 "", none)

/-- Lines 65-91 of `_extractUrlData`: `const paths = path.split("/")`
followed by the path validation. -/
def validatePath (path : String) : Except ParseError (EntityType × String × Option String) :=
  validateSegments (pathSegments path)

/-- `_extractUrlData`: path validation followed by the query loop and the
assembly of the record. -/
def extractUrlData (fragment authority : Option String) (path : String)
    (qs : List (List String)) : Except ParseError MatrixURL :=
  match validatePath path with
  | .error e => .error e
  | .ok (kind, id, eventId) =>
    let st := List.foldl classifyStep ⟨[], none, []⟩ qs
    .ok { id := id, kind := kind, eventId := eventId, fragment := fragment,
          authority := authority, via := st.via, action := st.action,
          unknownParams := st.unknown }

/-- The whole constructor, from the URL-primitive components: scheme
check, then fragment, authority, query tokenization and `_extractUrlData`. -/
def matrixURLParse (u : UrlParts) : Except ParseError MatrixURL :=
  if u.protocol ≠ "matrix:" then .error .InvalidScheme
  else extractUrlData (fragmentOf u) (authorityOf u) (strippedPath u)
    (tokenizeQuery u.search)

/-! ## Specification-side views of the query classification -/

/-- The values of the `via`-keyed tokens, in order. -/
def viaOf (qs : List (List String)) : List (Option String) :=
  (qs.filter (fun t => keyOf t == "via")).map valOf

/-- The values of the `action`-keyed tokens, in order. -/
def actionsOf (qs : List (List String)) : List (Option String) :=
  (qs.filter (fun t => keyOf t == "action")).map valOf

/-- The (key, value) pairs of the tokens keyed neither `via` nor
`action`, in order. -/
def unknownOf (qs : List (List String)) : List (String × Option String) :=
  (qs.filter (fun t => !(keyOf t == "via") && !(keyOf t == "action"))).map
    (fun t => (keyOf t, valOf t))

/-- The (key, value) pair the loop uses for a raw query token `s`. -/
def tokenKV (s : String) : String × Option String :=
  (keyOf (jsSplit s '='), valOf (jsSplit s '='))

/-! ## Lemmas about the JavaScript split -/

theorem splitAux_no_sep {c : Char} : ∀ {l : List Char}, c ∉ l → splitAux c l = (l, [])
  | [], _ => rfl
  | x :: xs, h => by
    have hx : ¬x = c := fun e => h (e ▸ List.mem_cons_self x xs)
    have hxs : c ∉ xs := fun m => h (List.mem_cons_of_mem _ m)
    simp [splitAux, splitAux_no_sep hxs, hx]

theorem splitAux_sep {c : Char} {rest : List Char} :
    ∀ {k : List Char}, c ∉ k →
      splitAux c (k ++ c :: rest) = (k, (splitAux c rest).1 :: (splitAux c rest).2)
  | [], _ => by simp [splitAux]
  | x :: xs, h => by
    have hx : ¬x = c := fun e => h (e ▸ List.mem_cons_self x xs)
    have hxs : c ∉ xs := fun m => h (List.mem_cons_of_mem _ m)
    simp [splitAux, splitAux_sep hxs, hx]

theorem splitOnChar_no_sep {c : Char} {l : List Char} (h : c ∉ l) :
    splitOnChar c l = [l] := by
  simp [splitOnChar, splitAux_no_sep h]

theorem splitOnChar_sep {c : Char} {k rest : List Char} (h : c ∉ k) :
    splitOnChar c (k ++ c :: rest) = k :: splitOnChar c rest := by
  simp [splitOnChar, splitAux_sep h]

theorem string_data_append (s t : String) : (s ++ t).data = s.data ++ t.data := by
  cases s; cases t; rfl

theorem jsSplit_no_sep {s : String} {c : Char} (h : c ∉ s.data) :
    jsSplit s c = [s] := by
  simp only [jsSplit, splitOnChar_no_sep h, List.map_cons, List.map_nil]

theorem jsSplit_eq_sep {k rest : String} (h : '=' ∉ k.data) :
    jsSplit (k ++ "=" ++ rest) '=' = k :: jsSplit rest '=' := by
  have hd : (k ++ "=" ++ rest).data = k.data ++ '=' :: rest.data := by
    rw [string_data_append, string_data_append]
    simp
  simp only [jsSplit, hd, splitOnChar_sep h, List.map_cons]

/-! ## Lemmas about the query-classification loop -/

theorem classify_foldl : ∀ (qs : List (List String)) (st : QState),
    List.foldl classifyStep st qs =
      ⟨st.via ++ viaOf qs, (actionsOf qs).getLastD st.action, st.unknown ++ unknownOf qs⟩
  | [], st => by simp [viaOf, actionsOf, unknownOf]
  | t :: qs, st => by
    rw [List.foldl_cons, classify_foldl qs]
    by_cases hv : keyOf t = "via"
    · have hva : ¬keyOf t = "action" := by rw [hv]; decide
      have hstep : classifyStep st t = { st with via := st.via ++ [valOf t] } := by
        simp [classifyStep, hv]
      have e1 : viaOf (t :: qs) = valOf t :: viaOf qs := by
        simp [viaOf, List.filter_cons, hv]
      have e2 : actionsOf (t :: qs) = actionsOf qs := by
        simp [actionsOf, List.filter_cons, hva]
      have e3 : unknownOf (t :: qs) = unknownOf qs := by
        simp [unknownOf, List.filter_cons, hv]
      rw [hstep, e1, e2, e3]
      simp
    · by_cases ha : keyOf t = "action"
      · have hstep : classifyStep st t = { st with action := valOf t } := by
          simp [classifyStep, hv, ha]
        have e1 : viaOf (t :: qs) = viaOf qs := by
          simp [viaOf, List.filter_cons, hv]
        have e2 : actionsOf (t :: qs) = valOf t :: actionsOf qs := by
          simp [actionsOf, List.filter_cons, ha]
        have e3 : unknownOf (t :: qs) = unknownOf qs := by
          simp [unknownOf, List.filter_cons, ha]
        rw [hstep, e1, e2, e3, List.getLastD_cons]
      · have hstep : classifyStep st t =
            { st with unknown := st.unknown ++ [(keyOf t, valOf t)] } := by
          simp [classifyStep, hv, ha]
        have e1 : viaOf (t :: qs) = viaOf qs := by
          simp [viaOf, List.filter_cons, hv]
        have e2 : actionsOf (t :: qs) = actionsOf qs := by
          simp [actionsOf, List.filter_cons, ha]
        have e3 : unknownOf (t :: qs) = (keyOf t, valOf t) :: unknownOf qs := by
          simp [unknownOf, List.filter_cons, hv, ha]
        rw [hstep, e1, e2, e3]
        simp

theorem mem_unknownOf {qs : List (List String)} {p : String × Option String}
    (hp : p ∈ unknownOf qs) : p.1 ≠ "via" ∧ p.1 ≠ "action" := by
  simp only [unknownOf, List.mem_map] at hp
  obtain ⟨t, ht, rfl⟩ := hp
  have := List.of_mem_filter ht
  simp only [Bool.and_eq_true, Bool.not_eq_true', beq_eq_false_iff_ne] at this
  exact this

/-! ## Inversion lemmas for the decomposer -/

theorem validatePath_ok {path : String} {k : EntityType} {i : String}
    {ev : Option String} (h : validatePath path = .ok (k, i, ev)) :
    ((pathSegments path).length = 2 ∨ (pathSegments path).length = 4) ∧
    kindOfTag ((pathSegments path).getD 0 "") = some k ∧
    i = (pathSegments path).getD 1 "" ∧ i ≠ "" ∧
    ((pathSegments path).length = 4 →
      ((pathSegments path).getD 2 "" = "e" ∨ (pathSegments path).getD 2 "" = "event") ∧
      (k = EntityType.RoomAlias ∨ k = EntityType.RoomId) ∧
      (pathSegments path).getD 3 "" ≠ "" ∧
      ev = some ((pathSegments path).getD 3 "")) ∧
    ((pathSegments path).length ≠ 4 → ev = none) := by
  unfold validatePath validateSegments at h
  split at h
  · exact Except.noConfusion h
  · rename_i hlen
    have h24 : (pathSegments path).length = 2 ∨ (pathSegments path).length = 4 := by
      by_cases h2 : (pathSegments path).length = 2
      · exact Or.inl h2
      · by_cases h4 : (pathSegments path).length = 4
        · exact Or.inr h4
        · exact absurd ⟨h2, h4⟩ hlen
    split at h
    · exact Except.noConfusion h
    · rename_i kind hk
      split at h
      · exact Except.noConfusion h
      · rename_i hid
        split at h
        · rename_i h4
          split at h
          · rename_i htag
            split at h
            · exact Except.noConfusion h
            · rename_i hkind
              split at h
              · exact Except.noConfusion h
              · rename_i hev
                injection h with h
                injection h with hkk h
                injection h with hii hee
                subst hkk; subst hii; subst hee
                refine ⟨h24, hk, rfl, hid, fun _ => ⟨htag, ?_, hev, rfl⟩, fun hn => absurd h4 hn⟩
                by_cases hra : kind = EntityType.RoomAlias
                · exact Or.inl hra
                · by_cases hri : kind = EntityType.RoomId
                  · exact Or.inr hri
                  · exact absurd ⟨hri, hra⟩ hkind
          · exact Except.noConfusion h
        · rename_i h4
          injection h with h
          injection h with hkk h
          injection h with hii hee
          subst hkk; subst hii; subst hee
          exact ⟨h24, hk, rfl, hid, fun hl => absurd hl h4, fun _ => rfl⟩

theorem validatePath_ne_scheme (path : String) :
    validatePath path ≠ .error .InvalidScheme := by
  intro h
  unfold validatePath validateSegments at h
  split at h
  · injection h with h
    exact ParseError.noConfusion h
  · split at h
    · injection h with h
      exact ParseError.noConfusion h
    · split at h
      · injection h with h
        exact ParseError.noConfusion h
      · split at h
        · split at h
          · split at h
            · injection h with h
              exact ParseError.noConfusion h
            · split at h
              · injection h with h
                exact ParseError.noConfusion h
              · exact Except.noConfusion h
          · injection h with h
            exact ParseError.noConfusion h
        · exact Except.noConfusion h

theorem validatePath_isc_iff (path : String) :
    validatePath path = .error .InvalidSegmentCount ↔
      ¬((pathSegments path).length = 2 ∨ (pathSegments path).length = 4) := by
  constructor
  · intro h
    unfold validatePath validateSegments at h
    split at h
    · rename_i hlen
      intro hc
      rcases hc with h2 | h4
      · exact hlen.1 h2
      · exact hlen.2 h4
    · split at h
      · injection h with h
        exact ParseError.noConfusion h
      · split at h
        · injection h with h
          exact ParseError.noConfusion h
        · split at h
          · split at h
            · split at h
              · injection h with h
                exact ParseError.noConfusion h
              · split at h
                · injection h with h
                  exact ParseError.noConfusion h
                · exact Except.noConfusion h
            · injection h with h
              exact ParseError.noConfusion h
          · exact Except.noConfusion h
  · intro hc
    unfold validatePath validateSegments
    rw [if_pos]
    exact ⟨fun h2 => hc (Or.inl h2), fun h4 => hc (Or.inr h4)⟩

theorem extract_ok_fields {frag auth : Option String} {path : String}
    {qs : List (List String)} {r : MatrixURL}
    (h : extractUrlData frag auth path qs = .ok r) :
    validatePath path = .ok (r.kind, r.id, r.eventId) ∧
    r.fragment = frag ∧ r.authority = auth ∧
    r.via = viaOf qs ∧ r.action = (actionsOf qs).getLastD none ∧
    r.unknownParams = unknownOf qs := by
  unfold extractUrlData at h
  split at h
  · exact Except.noConfusion h
  · rename_i kind i ev heq
    rw [classify_foldl] at h
    injection h with h
    subst h
    simpa using heq

theorem extract_error_iff {frag auth : Option String} {path : String}
    {qs : List (List String)} {e : ParseError} :
    extractUrlData frag auth path qs = .error e ↔ validatePath path = .error e := by
  unfold extractUrlData
  split
  · rename_i e1 heq
    rw [heq]
    constructor
    · intro h
      injection h with h
      rw [h]
    · intro h
      injection h with h
      rw [h]
  · rename_i trip heq
    rw [heq]
    constructor
    · intro h
      exact Except.noConfusion h
    · intro h
      exact Except.noConfusion h

theorem parse_eq_extract {u : UrlParts} (h : u.protocol = "matrix:") :
    matrixURLParse u = extractUrlData (fragmentOf u) (authorityOf u)
      (strippedPath u) (tokenizeQuery u.search) := by
  unfold matrixURLParse
  rw [if_neg (fun hc => hc h)]

theorem parse_ok_split {u : UrlParts} {r : MatrixURL}
    (h : matrixURLParse u = .ok r) :
    u.protocol = "matrix:" ∧
    extractUrlData (fragmentOf u) (authorityOf u) (strippedPath u)
      (tokenizeQuery u.search) = .ok r := by
  unfold matrixURLParse at h
  split at h
  · exact Except.noConfusion h
  · rename_i hp
    exact ⟨not_not.mp hp, h⟩

theorem list_length_two {α : Type} {l : List α} (h : l.length = 2) :
    ∃ a b, l = [a, b] := by
  match l, h with
  | [a, b], _ => exact ⟨a, b, rfl⟩

theorem list_length_four {α : Type} {l : List α} (h : l.length = 4) :
    ∃ a b c d, l = [a, b, c, d] := by
  match l, h with
  | [a, b, c, d], _ => exact ⟨a, b, c, d, rfl⟩

theorem validateSegments_four_user {b c d : String} (hb : b ≠ "")
    (hc : c = "e" ∨ c = "event") :
    validateSegments ["u", b, c, d] = .error .EventNotAllowedForKind := by
  have hker : kindOfTag "u" = some EntityType.UserId := by decide
  unfold validateSegments
  simp [hker, hb, hc]

theorem validatePath_event_user {path : String}
    (h4 : (pathSegments path).length = 4)
    (h0 : (pathSegments path).getD 0 "" = "u")
    (h1 : (pathSegments path).getD 1 "" ≠ "")
    (h2 : (pathSegments path).getD 2 "" = "e" ∨ (pathSegments path).getD 2 "" = "event") :
    validatePath path = .error .EventNotAllowedForKind := by
  obtain ⟨a, b, c, d, hl⟩ := list_length_four h4
  rw [hl] at h0 h1 h2
  simp only [List.getD_cons_zero, List.getD_cons_succ] at h0 h1 h2
  unfold validatePath
  rw [hl, h0]
  exact validateSegments_four_user h1 h2

theorem validateSegments_two_empty {a : String} {kind : EntityType}
    (hk : kindOfTag a = some kind) :
    validateSegments [a, ""] = .error .EmptyIdentifier := by
  unfold validateSegments
  simp [hk]

theorem validateSegments_four_empty {a c d : String} {kind : EntityType}
    (hk : kindOfTag a = some kind) :
    validateSegments [a, "", c, d] = .error .EmptyIdentifier := by
  unfold validateSegments
  simp [hk]

theorem validatePath_empty_id {path : String}
    (hk : (kindOfTag ((pathSegments path).getD 0 "")).isSome = true)
    (hlen : (pathSegments path).length = 2 ∨ (pathSegments path).length = 4)
    (h1 : (pathSegments path).getD 1 "" = "") :
    validatePath path = .error .EmptyIdentifier := by
  obtain ⟨kind, hkind⟩ := Option.isSome_iff_exists.mp hk
  unfold validatePath
  rcases hlen with h2 | h4
  · obtain ⟨a, b, hl⟩ := list_length_two h2
    rw [hl] at hkind h1
    simp only [List.getD_cons_zero, List.getD_cons_succ] at hkind h1
    rw [hl, h1]
    exact validateSegments_two_empty hkind
  · obtain ⟨a, b, c, d, hl⟩ := list_length_four h4
    rw [hl] at hkind h1
    simp only [List.getD_cons_zero, List.getD_cons_succ] at hkind h1
    rw [hl, h1]
    exact validateSegments_four_empty hkind

/-! ## Concrete inputs used by the claims -/

/-- Components of `matrix://example.com/u/alice` as reported by a URL
primitive that leaves the authority embedded in the pathname (the
"browser" shape of constructor lines 47-51). -/
def exBrowserAuthority : UrlParts :=
  { protocol := "matrix:", host := "", pathname := "//example.com/u/alice",
    search := "", hash := "" }

/-- Components of `matrix:r/room?client=a=b`. -/
def exEqualsInValue : UrlParts :=
  { protocol := "matrix:", host := "", pathname := "r/room",
    search := "?client=a=b", hash := "" }

/-- The record produced for `matrix:r/room?client=a=b`. -/
def exEqualsInValueResult : MatrixURL :=
  { id := "room", kind := .RoomAlias, eventId := none, fragment := none,
    authority := none, via := [], action := none,
    unknownParams := [("client", some "a")] }

/-- Components of `matrix:r/room/e/ev`. -/
def exEventPath : UrlParts :=
  { protocol := "matrix:", host := "", pathname := "r/room/e/ev",
    search := "", hash := "" }

/-- The record produced for `matrix:r/room/e/ev`. -/
def exEventPathResult : MatrixURL :=
  { id := "room", kind := .RoomAlias, eventId := some "ev", fragment := none,
    authority := none, via := [], action := none, unknownParams := [] }

/-- Components of `matrix:r/room?action=blah&action=chat&client=element`. -/
def exTwoActions : UrlParts :=
  { protocol := "matrix:", host := "", pathname := "r/room",
    search := "?action=blah&action=chat&client=element", hash := "" }

/-- The record produced for
`matrix:r/room?action=blah&action=chat&client=element`. -/
def exTwoActionsResult : MatrixURL :=
  { id := "room", kind := .RoomAlias, eventId := none, fragment := none,
    authority := none, via := [], action := some "chat",
    unknownParams := [("client", some "element")] }

/-- Components of `matrix:u/her:example.com/e/lol823y4bcp3qo4`. -/
def exUserEvent : UrlParts :=
  { protocol := "matrix:", host := "",
    pathname := "u/her:example.com/e/lol823y4bcp3qo4", search := "", hash := "" }

/-- Components of `matrix:u/alice/x/y`: four segments with first segment
`u` but a third segment that is not an event tag. -/
def exUserBadTag : UrlParts :=
  { protocol := "matrix:", host := "", pathname := "u/alice/x/y",
    search := "", hash := "" }

/-- Components of `matrix:u/a/b`: three path segments. -/
def exThreeSegments : UrlParts :=
  { protocol := "matrix:", host := "", pathname := "u/a/b",
    search := "", hash := "" }

/-- Components of `matrix:roomid/`: an empty second segment after a valid
kind tag. -/
def exEmptyId : UrlParts :=
  { protocol := "matrix:", host := "", pathname := "roomid/",
    search := "", hash := "" }

/-- Components of `matrix:bogus/`: an empty second segment after an
unrecognized kind tag. -/
def exBogusEmptyId : UrlParts :=
  { protocol := "matrix:", host := "", pathname := "bogus/",
    search := "", hash := "" }

/-- Components of `matrix:r/room?via=s1&foo=bar&via=s2&action=go&foo=baz`. -/
def exViaUnknown : UrlParts :=
  { protocol := "matrix:", host := "", pathname := "r/room",
    search := "?via=s1&foo=bar&via=s2&action=go&foo=baz", hash := "" }

/-- The record produced for
`matrix:r/room?via=s1&foo=bar&via=s2&action=go&foo=baz`. -/
def exViaUnknownResult : MatrixURL :=
  { id := "room", kind := .RoomAlias, eventId := none, fragment := none,
    authority := none, via := [some "s1", some "s2"], action := some "go",
    unknownParams := [("foo", some "bar"), ("foo", some "baz")] }

/-- Components of `matrix:u/alice?action=chat&action`: a bare trailing
`action` token. -/
def exBareAction : UrlParts :=
  { protocol := "matrix:", host := "", pathname := "u/alice",
    search := "?action=chat&action", hash := "" }

/-- The record produced for `matrix:u/alice?action=chat&action`. -/
def exBareActionResult : MatrixURL :=
  { id := "alice", kind := .UserId, eventId := none, fragment := none,
    authority := none, via := [], action := none, unknownParams := [] }

/-! ## The claims -/

/-- Claim C1 (code bug).  On a host-less pathname `//example.com/u/alice`
the constructor does set `authority` to the text between the double
separator and the next `/`, but `path.substring(authority.length+4)`
strips one character more than the prefix `//example.com/`: validation
continues on `/alice` instead of `u/alice`, so the parse fails with
`InvalidEntityDescriptor` instead of succeeding. -/
theorem claim1_browser_authority_strip :
    authorityOf exBrowserAuthority = some "example.com" ∧
    strippedPath exBrowserAuthority = "/alice" ∧
    strippedPath exBrowserAuthority ≠ "u/alice" ∧
    matrixURLParse exBrowserAuthority = .error .InvalidEntityDescriptor := by
  refine ⟨by rfl, by rfl, by decide, by rfl⟩

/-- Claim C2 counterexample.  For the query `?client=a=b` the stored value
is `"a"`, not the entire text `"a=b"` after the first `=`, refuting the
claim that each token is split on the first `=` only. -/
theorem claim2_counterexample :
    matrixURLParse exEqualsInValue = .ok exEqualsInValueResult ∧
    exEqualsInValueResult.unknownParams = [("client", some "a")] ∧
    (some "a" : Option String) ≠ some "a=b" := by
  refine ⟨by rfl, by rfl, by decide⟩

/-- Claim C2 (amended).  A query token is split on every `=`; the pair
used by classification is (text before the first `=`, text between the
first and second `=`), so anything after a second `=` is discarded. -/
theorem claim2_amended (k rest : String) (h : '=' ∉ k.data) :
    tokenKV (k ++ "=" ++ rest) = (k, some ((jsSplit rest '=').headD "")) := by
  unfold tokenKV
  rw [jsSplit_eq_sep h]
  rfl

/-- Witness for the amended claim C2 at the token `client=a=b`. -/
theorem claim2_amended_witness :
    tokenKV ("client" ++ "=" ++ "a=b") = ("client", some "a") := by
  rw [claim2_amended "client" "a=b" (by decide)]
  rfl

/-- Claim C3.  The parse fails with `InvalidScheme` exactly when the
scheme token reported by the URL primitive is not the case-sensitive
literal `matrix:`; in particular a reported protocol `MATRIX:` fails and
the exact protocol `matrix:` passes the scheme check. -/
theorem claim3_scheme_exact (u : UrlParts) :
    matrixURLParse u = .error .InvalidScheme ↔ u.protocol ≠ "matrix:" := by
  constructor
  · intro h hp
    rw [parse_eq_extract hp] at h
    exact validatePath_ne_scheme (strippedPath u) (extract_error_iff.mp h)
  · intro hp
    unfold matrixURLParse
    rw [if_pos hp]

/-- Claim C4.  For every successful parse, `eventId` is present if and
only if the post-authority path had exactly 4 segments, the kind is
`RoomAlias` or `RoomId`, the third segment is `e` or `event` and the
fourth segment is non-empty; and when present it equals the fourth
segment exactly. -/
theorem claim4_eventId_iff (u : UrlParts) (r : MatrixURL)
    (h : matrixURLParse u = .ok r) :
    (r.eventId ≠ none ↔
      ((pathSegments (strippedPath u)).length = 4 ∧
       (r.kind = EntityType.RoomAlias ∨ r.kind = EntityType.RoomId) ∧
       ((pathSegments (strippedPath u)).getD 2 "" = "e" ∨
        (pathSegments (strippedPath u)).getD 2 "" = "event") ∧
       (pathSegments (strippedPath u)).getD 3 "" ≠ "")) ∧
    (∀ e, r.eventId = some e → e = (pathSegments (strippedPath u)).getD 3 "") := by
  obtain ⟨-, hE⟩ := parse_ok_split h
  obtain ⟨hV, -, -, -, -, -⟩ := extract_ok_fields hE
  obtain ⟨h24, hkind, hid, hidne, h4imp, h2imp⟩ := validatePath_ok hV
  constructor
  · constructor
    · intro hne
      by_cases hl : (pathSegments (strippedPath u)).length = 4
      · obtain ⟨htag, hkor, hev, heq⟩ := h4imp hl
        exact ⟨hl, hkor, htag, hev⟩
      · exact absurd (h2imp hl) hne
    · rintro ⟨hl, -, -, -⟩
      obtain ⟨-, -, -, heq⟩ := h4imp hl
      rw [heq]
      exact Option.some_ne_none _
  · intro e he
    by_cases hl : (pathSegments (strippedPath u)).length = 4
    · obtain ⟨-, -, -, heq⟩ := h4imp hl
      rw [he] at heq
      exact (Option.some.inj heq.symm).symm
    · rw [h2imp hl] at he
      exact Option.noConfusion he

/-- Witness for claim C4 at `matrix:r/room/e/ev`. -/
theorem claim4_eventId_iff_witness :
    (exEventPathResult.eventId ≠ none ↔
      ((pathSegments (strippedPath exEventPath)).length = 4 ∧
       (exEventPathResult.kind = EntityType.RoomAlias ∨
        exEventPathResult.kind = EntityType.RoomId) ∧
       ((pathSegments (strippedPath exEventPath)).getD 2 "" = "e" ∨
        (pathSegments (strippedPath exEventPath)).getD 2 "" = "event") ∧
       (pathSegments (strippedPath exEventPath)).getD 3 "" ≠ "")) ∧
    (∀ e, exEventPathResult.eventId = some e →
      e = (pathSegments (strippedPath exEventPath)).getD 3 "") :=
  claim4_eventId_iff exEventPath exEventPathResult (by rfl)

/-- Claim C5.  For every successful parse, `action` is the value of the
last `action` query occurrence (absent if none occurred), and no
`action`-keyed pair ever lands in `unknownParams`. -/
theorem claim5_action_last (u : UrlParts) (r : MatrixURL)
    (h : matrixURLParse u = .ok r) :
    r.action = (actionsOf (tokenizeQuery u.search)).getLastD none ∧
    ∀ p ∈ r.unknownParams, p.1 ≠ "action" := by
  obtain ⟨-, hE⟩ := parse_ok_split h
  obtain ⟨-, -, -, -, hact, hunk⟩ := extract_ok_fields hE
  refine ⟨hact, fun p hp => ?_⟩
  rw [hunk] at hp
  exact (mem_unknownOf hp).2

/-- Witness for claim C5 at
`matrix:r/room?action=blah&action=chat&client=element`. -/
theorem claim5_action_last_witness :
    exTwoActionsResult.action =
      (actionsOf (tokenizeQuery exTwoActions.search)).getLastD none ∧
    ∀ p ∈ exTwoActionsResult.unknownParams, p.1 ≠ "action" :=
  claim5_action_last exTwoActions exTwoActionsResult (by rfl)

/-- Claim C6 counterexample.  `matrix:u/alice/x/y` has first segment `u`
and 4 path segments, yet fails with `InvalidEntityDescriptor` (the third
segment is checked before the kind), not `EventNotAllowedForKind`. -/
theorem claim6_counterexample :
    (pathSegments (strippedPath exUserBadTag)).length = 4 ∧
    (pathSegments (strippedPath exUserBadTag)).getD 0 "" = "u" ∧
    matrixURLParse exUserBadTag = .error .InvalidEntityDescriptor ∧
    ParseError.InvalidEntityDescriptor ≠ ParseError.EventNotAllowedForKind := by
  refine ⟨by decide, by decide, by rfl, by decide⟩

/-- Claim C6 (amended).  Every input with scheme `matrix:` whose entity
path has 4 segments, first segment `u`, a non-empty second segment and a
third segment `e` or `event` fails with `EventNotAllowedForKind`. -/
theorem claim6_amended (u : UrlParts) (hp : u.protocol = "matrix:")
    (h4 : (pathSegments (strippedPath u)).length = 4)
    (h0 : (pathSegments (strippedPath u)).getD 0 "" = "u")
    (h1 : (pathSegments (strippedPath u)).getD 1 "" ≠ "")
    (h2 : (pathSegments (strippedPath u)).getD 2 "" = "e" ∨
          (pathSegments (strippedPath u)).getD 2 "" = "event") :
    matrixURLParse u = .error .EventNotAllowedForKind := by
  rw [parse_eq_extract hp]
  exact extract_error_iff.mpr (validatePath_event_user h4 h0 h1 h2)

/-- Witness for the amended claim C6 at
`matrix:u/her:example.com/e/lol823y4bcp3qo4`. -/
theorem claim6_amended_witness :
    matrixURLParse exUserEvent = .error .EventNotAllowedForKind :=
  claim6_amended exUserEvent rfl (by decide) (by decide) (by decide) (by decide)

/-- Claim C7.  For every input passing the scheme check, the parse fails
with `InvalidSegmentCount` exactly when the post-authority path splits
into a number of segments other than 2 or 4. -/
theorem claim7_segment_count (u : UrlParts) (h : u.protocol = "matrix:") :
    matrixURLParse u = .error .InvalidSegmentCount ↔
      ¬((pathSegments (strippedPath u)).length = 2 ∨
        (pathSegments (strippedPath u)).length = 4) := by
  rw [parse_eq_extract h, extract_error_iff, validatePath_isc_iff]

/-- Witness for claim C7 at the 3-segment path `matrix:u/a/b`. -/
theorem claim7_segment_count_witness :
    matrixURLParse exThreeSegments = .error .InvalidSegmentCount :=
  (claim7_segment_count exThreeSegments rfl).mpr (by decide)

/-- Claim C8 counterexample.  `matrix:bogus/` has an empty second path
segment, yet fails with `InvalidEntityDescriptor` (the kind tag is
checked first), not `EmptyIdentifier`. -/
theorem claim8_counterexample :
    (pathSegments (strippedPath exBogusEmptyId)).getD 1 "" = "" ∧
    matrixURLParse exBogusEmptyId = .error .InvalidEntityDescriptor ∧
    ParseError.InvalidEntityDescriptor ≠ ParseError.EmptyIdentifier := by
  refine ⟨by decide, by rfl, by decide⟩

/-- Claim C8 (amended).  Every successful parse has `id` equal to the
second path segment and non-empty; and every input with scheme `matrix:`,
a recognized kind tag, 2 or 4 path segments and an empty second segment
fails with `EmptyIdentifier`. -/
theorem claim8_amended :
    (∀ (u : UrlParts) (r : MatrixURL), matrixURLParse u = .ok r →
      r.id = (pathSegments (strippedPath u)).getD 1 "" ∧ r.id ≠ "") ∧
    (∀ u : UrlParts, u.protocol = "matrix:" →
      (kindOfTag ((pathSegments (strippedPath u)).getD 0 "")).isSome = true →
      ((pathSegments (strippedPath u)).length = 2 ∨
       (pathSegments (strippedPath u)).length = 4) →
      (pathSegments (strippedPath u)).getD 1 "" = "" →
      matrixURLParse u = .error .EmptyIdentifier) := by
  constructor
  · intro u r h
    obtain ⟨-, hE⟩ := parse_ok_split h
    obtain ⟨hV, -⟩ := extract_ok_fields hE
    obtain ⟨-, -, hid, hidne, -⟩ := validatePath_ok hV
    exact ⟨hid, hidne⟩
  · intro u hp hk hlen h1
    rw [parse_eq_extract hp]
    exact extract_error_iff.mpr (validatePath_empty_id hk hlen h1)

/-- Witness for the amended claim C8 at `matrix:roomid/` and at the
successful parse of `matrix:r/room/e/ev`. -/
theorem claim8_amended_witness :
    matrixURLParse exEmptyId = .error .EmptyIdentifier ∧
    exEventPathResult.id ≠ "" :=
  ⟨claim8_amended.2 exEmptyId rfl (by decide) (by decide) (by decide),
   (claim8_amended.1 exEventPath exEventPathResult (by rfl)).2⟩

/-- Claim C9.  For every successful parse, `via` is exactly the list of
`via`-keyed values in encounter order (so its length is the number of
`via` occurrences), and `unknownParams` is exactly the list of pairs
keyed neither `via` nor `action`, in order with duplicates preserved. -/
theorem claim9_via_unknown (u : UrlParts) (r : MatrixURL)
    (h : matrixURLParse u = .ok r) :
    r.via = viaOf (tokenizeQuery u.search) ∧
    r.via.length =
      ((tokenizeQuery u.search).filter (fun t => keyOf t == "via")).length ∧
    r.unknownParams = unknownOf (tokenizeQuery u.search) ∧
    ∀ p ∈ r.unknownParams, p.1 ≠ "via" ∧ p.1 ≠ "action" := by
  obtain ⟨-, hE⟩ := parse_ok_split h
  obtain ⟨-, -, -, hvia, -, hunk⟩ := extract_ok_fields hE
  refine ⟨hvia, ?_, hunk, fun p hp => ?_⟩
  · rw [hvia]
    simp [viaOf]
  · rw [hunk] at hp
    exact mem_unknownOf hp

/-- Witness for claim C9 at
`matrix:r/room?via=s1&foo=bar&via=s2&action=go&foo=baz`. -/
theorem claim9_via_unknown_witness :
    exViaUnknownResult.via = viaOf (tokenizeQuery exViaUnknown.search) ∧
    exViaUnknownResult.via.length =
      ((tokenizeQuery exViaUnknown.search).filter (fun t => keyOf t == "via")).length ∧
    exViaUnknownResult.unknownParams = unknownOf (tokenizeQuery exViaUnknown.search) ∧
    ∀ p ∈ exViaUnknownResult.unknownParams, p.1 ≠ "via" ∧ p.1 ≠ "action" :=
  claim9_via_unknown exViaUnknown exViaUnknownResult (by rfl)

/-- Claim C10.  A query token with no `=` yields the pair (token, absent
value); classification stores that absent value (a bare `via` appends an
absent entry, a bare `action` sets the running action to absent, any
other bare key `K` appends `(K, absent)`); in particular
`matrix:u/alice?action=chat&action` parses with `action` absent. -/
theorem claim10_bare_tokens :
    (∀ s : String, '=' ∉ s.data → tokenKV s = (s, none)) ∧
    (∀ (st : QState) (s : String), '=' ∉ s.data →
      classifyStep st (jsSplit s '=') =
        if s = "via" then { st with via := st.via ++ [none] }
        else if s = "action" then { st with action := none }
        else { st with unknown := st.unknown ++ [(s, none)] }) ∧
    matrixURLParse exBareAction = .ok exBareActionResult := by
  refine ⟨?_, ?_, by rfl⟩
  · intro s h
    unfold tokenKV
    rw [jsSplit_no_sep h]
    rfl
  · intro st s h
    rw [jsSplit_no_sep h]
    unfold classifyStep keyOf valOf
    rfl

/-- Witness for claim C10 at the bare tokens `via` and `foo`. -/
theorem claim10_bare_tokens_witness :
    tokenKV "via" = ("via", none) ∧
    classifyStep ⟨[], none, []⟩ (jsSplit "foo" '=') = ⟨[], none, [("foo", none)]⟩ := by
  constructor
  · exact claim10_bare_tokens.1 "via" (by decide)
  · rw [claim10_bare_tokens.2.1 ⟨[], none, []⟩ "foo" (by decide)]
    rfl

end MatrixUri
